import Mathlib

/-!
Verification of the email-open notification relay described in spec.md
(repository Tekalig/EnrichmentAgentTest).

The repository ships the configuration module (`src/config.py`, duplicated in
`email-open-discord-notifier/src/config.py`) and test scaffolding; the relay
engine itself (Reconciler, DedupCache, EventStore, Poller,
NotificationDispatcher, AggregationEngine) is described by spec.md but its
implementation files are not part of the provided sources.  The configuration
definitions below are embedded directly from `config.py`; the relay engine is
modelled from the spec, each such definition saying so in its doc comment.
-/

namespace EmailRelay

/-- Modelled from the spec: the source of a raw open notice — webhook push or
periodic poll (§4.1 `source: {webhook, poll}`). -/
inductive Source where
  | webhook
  | poll
deriving DecidableEq, Repr

/-- Modelled from the spec: `SourceNotice` carries
`(email_id, lead_id, opens_count, opened_at, source)` (§4.1).  Timestamps are
modelled as naturals (seconds). -/
structure SourceNotice where
  email_id : String
  lead_id : String
  opens_count : Nat
  opened_at : Nat
  source : Source
deriving DecidableEq, Repr

/-- Modelled from the spec: an `EmailOpenEvent` row of the EventStore (§3).
`notified` records whether this row was handed to the NotificationDispatcher
(rule 3 of §4.1) or is a replay audit record (rule 2).  The cosmetic fields
`lead_name`, `subject`, `recipient` never enter any decision (§3: "descriptive,
never used for identity") and are omitted. -/
structure EmailOpenEvent where
  email_id : String
  lead_id : String
  opens_count : Nat
  opened_at : Nat
  notified : Bool
deriving DecidableEq, Repr

/-- Modelled from the spec: the relay's mutable state — the EventStore as an
append-only log (newest last) and the DedupCache as an association list
`email_id ↦ (last_notified_opens_count, last_seen_at)` (§3 CacheEntry). -/
structure RelayState where
  store : List EmailOpenEvent
  cache : List (String × Nat × Nat)
deriving DecidableEq, Repr

/-- Modelled from the spec: the Reconciler's classification of a notice
(§4.1: Replay, Novel, Incremented). -/
inductive Decision where
  | replay
  | novel
  | incremented
deriving DecidableEq, Repr

/-- The empty initial state: no stored events, no cache entries. -/
def initState : RelayState := ⟨[], []⟩

/-- Modelled from the spec: `DedupCache.Get` (§4.2) — the first cache entry for
`email_id`, as `(count, seenAt)`. -/
def cacheGet (cache : List (String × Nat × Nat)) (eid : String) : Option (Nat × Nat) :=
  (cache.find? (fun e => e.1 == eid)).map (fun e => e.2)

/-- Modelled from the spec: `DedupCache.Put` (§4.2) — replace any entry for
`email_id` by `(count, seenAt)`. -/
def cachePut (cache : List (String × Nat × Nat)) (eid : String) (count seenAt : Nat) :
    List (String × Nat × Nat) :=
  (cache.filter (fun e => !(e.1 == eid))) ++ [(eid, count, seenAt)]

/-- Modelled from the spec: the EventStore fallback lookup (§3 Ownership: the
cache is "a derived, rebuildable acceleration structure over EventStore"; on a
cache miss the Reconciler "falls back to an EventStore lookup by `email_id`" to
re-derive the dedup state, i.e. the last notified `opens_count`).  Since
notified counts only ever increase, the last notified count equals the maximum
over the notified rows for this `email_id`; replay audit rows are not notified
and do not participate.  `0` when the `email_id` has never been notified. -/
def lastNotified : List EmailOpenEvent → String → Nat
  | [], _ => 0
  | e :: rest, eid =>
      if e.email_id = eid ∧ e.notified = true then max e.opens_count (lastNotified rest eid)
      else lastNotified rest eid

/-- Modelled from the spec: step 1 of the Reconciler (§4.1) — "Look up current
dedup state for `email_id` (cache, else store fallback; absent ⇒ treat last
count as 0)". -/
def dedupState (s : RelayState) (eid : String) : Nat :=
  match cacheGet s.cache eid with
  | some c => c.1
  | none => lastNotified s.store eid

/-- Modelled from the spec: whether the relay has any trace of `email_id`
(cache entry or stored event); distinguishes Novel ("first-ever") from
Incremented ("count increased") in §4.1 rule 3. -/
def hasSeen (s : RelayState) (eid : String) : Bool :=
  (cacheGet s.cache eid).isSome || s.store.any (fun e => e.email_id == eid)

/-- The EventStore row recorded for a notice. -/
def eventOf (n : SourceNotice) (notified : Bool) : EmailOpenEvent :=
  ⟨n.email_id, n.lead_id, n.opens_count, n.opened_at, notified⟩

/-- Modelled from the spec: `Reconciler.Ingest(rawNotice) -> Decision` (§4.1).
Returns the decision, the successor state, and the notification (if any) handed
to the NotificationDispatcher, as `(email_id, opens_count)`.
Rule 2: `opens_count ≤ last_notified_opens_count` ⇒ Replay, recorded to the
EventStore for audit, no notification.  Rule 3: otherwise Novel/Incremented,
persist the event with the new `opens_count`, emit to the dispatcher, and
update the DedupCache with the new count and the current time. -/
def ingest (s : RelayState) (n : SourceNotice) (now : Nat) :
    Decision × RelayState × Option (String × Nat) :=
  let last := dedupState s n.email_id
  if n.opens_count ≤ last then
    (Decision.replay, ⟨s.store ++ [eventOf n false], s.cache⟩, none)
  else
    ((if hasSeen s n.email_id then Decision.incremented else Decision.novel),
     ⟨s.store ++ [eventOf n true], cachePut s.cache n.email_id n.opens_count now⟩,
     some (n.email_id, n.opens_count))

/-- Modelled from the spec: `DedupCache.Evict(now)` (§4.2) — remove entries
whose `seenAt` precedes `now` minus the retention window (in seconds here);
the store is untouched. -/
def evictCache (s : RelayState) (now retentionSeconds : Nat) : RelayState :=
  ⟨s.store, s.cache.filter (fun e => decide (now - retentionSeconds ≤ e.2.2))⟩

/-- Ingest a timed sequence of notices, collecting the dispatched
notifications in order. -/
def run (s : RelayState) : List (SourceNotice × Nat) → RelayState × List (String × Nat)
  | [] => (s, [])
  | (n, t) :: rest =>
      let r := ingest s n t
      let rr := run r.2.1 rest
      (rr.1, r.2.2.toList ++ rr.2)

/-- The states the relay can actually be in: reachable from the empty state by
ingesting notices and evicting cache entries. -/
inductive Reachable : RelayState → Prop where
  | init : Reachable initState
  | ingestStep {s : RelayState} (n : SourceNotice) (now : Nat) :
      Reachable s → Reachable (ingest s n now).2.1
  | evictStep {s : RelayState} (now retentionSeconds : Nat) :
      Reachable s → Reachable (evictCache s now retentionSeconds)

/-- The cache coherence invariant: every cache entry holds exactly the last
notified count of its `email_id` as derivable from the store, and that count is
positive (a notification always carries a count strictly above the previous
state, which is at least 0). -/
def Good (s : RelayState) : Prop :=
  ∀ p ∈ s.cache, p.2.1 = lastNotified s.store p.1 ∧ 1 ≤ p.2.1

/-- The `opens_count` column of the stored rows for one `email_id`, in append
(time) order. -/
def storedCounts (s : RelayState) (eid : String) : List Nat :=
  (s.store.filter (fun e => e.email_id == eid)).map (fun e => e.opens_count)

/-- The `opens_count` column of the stored *notified* rows for one `email_id`,
in append (time) order. -/
def notifiedCounts (s : RelayState) (eid : String) : List Nat :=
  (s.store.filter (fun e => e.email_id == eid && e.notified)).map (fun e => e.opens_count)

/-- Modelled from the spec: the webhook receiver (§6, §7).  `payload` is the
parsed request body (`none` for a malformed payload), `storeOk` whether the
EventStore append succeeds.  It responds 200 on successful ingestion (even when
classified Replay), 4xx on a malformed payload, and a StorageFailure is the
only class treated as request-failing (5xx). -/
def handleWebhook (s : RelayState) (payload : Option SourceNotice) (now : Nat)
    (storeOk : Bool) : Nat × RelayState :=
  match payload with
  | none => (400, s)
  | some n => if storeOk then (200, (ingest s n now).2.1) else (500, s)

/-- Lowercasing as Python's `str.lower()` used in `config.py`: the string with
every character lowercased (charwise; the configuration values at issue are
ASCII). -/
def pyLower (s : String) : String := ⟨s.data.map Char.toLower⟩

/-- Python's `int()` on the numerals `config.py` parses: the value of a
non-empty all-digit string, `none` otherwise (where `int()` raises). -/
def pyInt? (s : String) : Option Nat :=
  if s.data ≠ [] ∧ s.data.all (fun c => c.isDigit) then
    some (s.data.foldl (fun n c => n * 10 + (c.toNat - 48)) 0)
  else none

/-- Pydantic's boolean coercion, applied by `BaseSettings` to the raw
environment string of a `bool` field: case-insensitively, `"true"`, `"t"`,
`"yes"`, `"y"`, `"on"` and `"1"` parse to `True`; `"false"`, `"f"`, `"no"`,
`"n"`, `"off"` and `"0"` parse to `False`; anything else raises a
`ValidationError` (`none`, so constructing the settings fails). -/
def pydanticBool? (s : String) : Option Bool :=
  if pyLower s ∈ ["true", "t", "yes", "y", "on", "1"] then some true
  else if pyLower s ∈ ["false", "f", "no", "n", "off", "0"] then some false
  else none

/-- The `DEBUG` field of `Settings()` as `config.py` actually loads it: the
class body computes the default `os.getenv("DEBUG", "false").lower() == "true"`,
but pydantic `BaseSettings` gives the environment precedence — when the
`DEBUG` variable is set, its raw value is coerced by `pydanticBool?` (failing
construction on a non-boolean value) and the default is unused. -/
def debugOf (env : String → Option String) : Option Bool :=
  match env "DEBUG" with
  | some v => pydanticBool? v
  | none => some (pyLower ((env "DEBUG").getD "false") == "true")

/-- Lexicographic order on character sequences by code point. -/
def charsLe : List Char → List Char → Bool
  | [], _ => true
  | _ :: _, [] => false
  | c :: cs, d :: ds =>
      if c.toNat < d.toNat then true
      else if d.toNat < c.toNat then false
      else charsLe cs ds

/-- Lexicographic order on strings by code point (Python string `<=`). -/
def strLe (a b : String) : Bool := charsLe a.data b.data

/-- Modelled from the spec: a lead's total opens for `TopLeads` (§4.5) — the
number of open events stored for this lead. -/
def leadOpens (store : List EmailOpenEvent) (lid : String) : Nat :=
  (store.filter (fun e => e.lead_id == lid)).length

/-- The distinct lead ids appearing in the store. -/
def leadIds (store : List EmailOpenEvent) : List String :=
  (store.map (fun e => e.lead_id)).dedup

/-- Modelled from the spec: the `TopLeads` ranking order (§4.5): total opens
descending, ties broken by lead_id ascending for determinism. -/
def leadOrder (store : List EmailOpenEvent) (a b : String) : Prop :=
  leadOpens store b < leadOpens store a ∨
    (leadOpens store a = leadOpens store b ∧ strLe a b = true)

instance (store : List EmailOpenEvent) : DecidableRel (leadOrder store) := fun _ _ =>
  inferInstanceAs (Decidable (_ ∨ _))

/-- Modelled from the spec: `TopLeads(limit)` (§4.5): leads ranked by
`leadOrder`, truncated to `limit`. -/
def topLeads (store : List EmailOpenEvent) (limit : Nat) : List String :=
  (List.insertionSort (leadOrder store) (leadIds store)).take limit

/-- Embedded from `src/config.py` (`class Settings`): the fields the claims
touch, with the server constants. -/
structure Settings where
  HOST : String
  PORT : Nat
  DEBUG : Bool
  CLOSEIO_API_KEY : String
  DISCORD_WEBHOOK_URL : String
  POLLING_ENABLED : Bool
  POLLING_INTERVAL_SECONDS : Nat
  CACHE_RETENTION_HOURS : Nat
  DATABASE_URL : String

/-- Embedded from `src/config.py` lines 14–37 (identically
`email-open-discord-notifier/src/config.py` lines 14–33): each field is the
value of its `os.getenv` defaulting expression over the process environment
`env`.  Python's `int()` raises on a malformed value; that parse is modelled
Option-valued (the claims only evaluate it on well-formed numerals).
Scope: this embeds the default expressions only — the value a field takes when
its environment variable is unset, and the pass-through value for plain string
fields.  When a variable is set, pydantic `BaseSettings` overrides the default
with the coerced raw environment value, so the `Bool`/`Nat` fields here agree
with the program only on values the `getenv` expression and pydantic coerce
alike (unset, `"true"`/`"false"` for booleans, plain numerals for integers);
`debugOf` models the override for the `DEBUG` field, where the two diverge. -/
def settingsOf (env : String → Option String) : Settings :=
  { HOST := "0.0.0.0"
    PORT := 8000
    DEBUG := pyLower ((env "DEBUG").getD "false") == "true"
    CLOSEIO_API_KEY := (env "CLOSEIO_API_KEY").getD ""
    DISCORD_WEBHOOK_URL := (env "DISCORD_WEBHOOK_URL").getD ""
    POLLING_ENABLED := pyLower ((env "POLLING_ENABLED").getD "true") == "true"
    POLLING_INTERVAL_SECONDS := (pyInt? ((env "POLLING_INTERVAL_SECONDS").getD "300")).getD 0
    CACHE_RETENTION_HOURS := (pyInt? ((env "CACHE_RETENTION_HOURS").getD "24")).getD 0
    DATABASE_URL := (env "DATABASE_URL").getD "sqlite+aiosqlite:///./data/email_opens.db" }

/-- Modelled from the spec: whether the Poller's scheduler runs (§2, §4.3): it
polls exactly when `POLLING_ENABLED` is set, independent of every other
configuration field (in particular of `DISCORD_WEBHOOK_URL`). -/
def pollerRuns (cfg : Settings) : Bool := cfg.POLLING_ENABLED

/-- Modelled from the spec: one Poller tick (§4.3): when polling is enabled,
every fetched CRM activity record is mapped to a `SourceNotice` with
`source = poll` and fed to the Reconciler. -/
def pollerTick (cfg : Settings) (s : RelayState) (activity : List SourceNotice)
    (now : Nat) : RelayState × List (String × Nat) :=
  if cfg.POLLING_ENABLED then
    run s (activity.map (fun n => ({ n with source := Source.poll }, now)))
  else (s, [])

/-- The environment with every variable unset. -/
def emptyEnv : String → Option String := fun _ => none

/-- An environment configuring only the chat webhook. -/
def envWithWebhook : String → Option String := fun k =>
  if k = "DISCORD_WEBHOOK_URL" then some "https://discord.example/api/webhooks/1/x" else none

/-- A webhook notice for `E1` with `opens_count = 3` (spec Scenario C). -/
def noticeE1w3 : SourceNotice := ⟨"E1", "L1", 3, 10, Source.webhook⟩

/-- A poll notice for `E1` with `opens_count = 2` (spec Scenario C). -/
def noticeE1p2 : SourceNotice := ⟨"E1", "L1", 2, 11, Source.poll⟩

/-- A store with two leads `L1` and `L2` at three opens each (spec
Scenario E). -/
def demoStore : List EmailOpenEvent :=
  [⟨"e1", "L1", 1, 1, true⟩, ⟨"e2", "L1", 1, 2, true⟩, ⟨"e3", "L1", 1, 3, true⟩,
   ⟨"e4", "L2", 1, 4, true⟩, ⟨"e5", "L2", 1, 5, true⟩, ⟨"e6", "L2", 1, 6, true⟩]

/-! ### Basic lemmas about the cache and the store fallback -/

theorem find?_filter_of_imp {α : Type} (p q : α → Bool) (l : List α)
    (h : ∀ x, p x = true → q x = true) : (l.filter q).find? p = l.find? p := by
  induction l with
  | nil => rfl
  | cons x l ih =>
      by_cases hp : p x = true
      · have hq := h x hp
        simp [List.filter_cons, hq, List.find?_cons_of_pos, hp]
      · by_cases hq : q x = true <;>
          simp [List.filter_cons, hq, List.find?_cons_of_neg, hp, ih]

theorem cacheGet_cachePut_self (c : List (String × Nat × Nat)) (eid : String) (cnt t : Nat) :
    cacheGet (cachePut c eid cnt t) eid = some (cnt, t) := by
  unfold cacheGet cachePut
  rw [List.find?_append]
  have h1 : (c.filter (fun e => !(e.1 == eid))).find? (fun e => e.1 == eid) = none := by
    rw [List.find?_eq_none]
    intro x hx
    have hx2 := (List.mem_filter.mp hx).2
    simp only [Bool.not_eq_true', beq_eq_false_iff_ne, ne_eq] at hx2
    simp [hx2]
  simp [h1, List.find?_cons_of_pos]

theorem cacheGet_cachePut_other (c : List (String × Nat × Nat)) (eid eid' : String)
    (cnt t : Nat) (h : eid' ≠ eid) :
    cacheGet (cachePut c eid cnt t) eid' = cacheGet c eid' := by
  unfold cacheGet cachePut
  rw [List.find?_append]
  have h2 : List.find? (fun e => e.1 == eid') [(eid, cnt, t)] = none := by
    simp [List.find?_cons_of_neg, Ne.symm h]
  have h3 : (c.filter (fun e => !(e.1 == eid))).find? (fun e => e.1 == eid') =
      c.find? (fun e => e.1 == eid') := by
    apply find?_filter_of_imp
    intro x hx
    simp only [beq_iff_eq] at hx
    simp [hx, h]
  rw [h2, h3]
  cases c.find? (fun e => e.1 == eid') <;> rfl

theorem cacheGet_mem {c : List (String × Nat × Nat)} {eid : String} {v : Nat × Nat}
    (h : cacheGet c eid = some v) : (eid, v) ∈ c := by
  unfold cacheGet at h
  cases hf : c.find? (fun e => e.1 == eid) with
  | none => rw [hf] at h; simp at h
  | some e =>
      rw [hf] at h
      have hm := List.mem_of_find?_eq_some hf
      have hp := List.find?_some hf
      simp only [beq_iff_eq] at hp
      simp only [Option.map_some', Option.some.injEq] at h
      have : (eid, v) = e := by
        cases e with
        | mk e1 e2 => simp_all
      rw [this]
      exact hm

theorem lastNotified_append (l : List EmailOpenEvent) (e : EmailOpenEvent) (eid : String) :
    lastNotified (l ++ [e]) eid =
      if e.email_id = eid ∧ e.notified = true then max (lastNotified l eid) e.opens_count
      else lastNotified l eid := by
  induction l with
  | nil =>
      simp only [List.nil_append, lastNotified]
      split <;> simp [Nat.max_comm]
  | cons x l ih =>
      by_cases hx : x.email_id = eid ∧ x.notified = true <;>
        by_cases he : e.email_id = eid ∧ e.notified = true <;>
        simp [List.cons_append, lastNotified, ih, hx, he, Nat.max_assoc]

theorem lastNotified_pos {l : List EmailOpenEvent} {eid : String}
    (h : lastNotified l eid ≠ 0) : l.any (fun e => e.email_id == eid) = true := by
  induction l with
  | nil => simp [lastNotified] at h
  | cons x l ih =>
      simp only [lastNotified] at h
      by_cases hx : x.email_id = eid ∧ x.notified = true
      · simp [List.any_cons, hx.1]
      · rw [if_neg hx] at h
        simp [List.any_cons, ih h]

theorem dedupState_good {s : RelayState} (hg : Good s) (eid : String) :
    dedupState s eid = lastNotified s.store eid := by
  unfold dedupState
  cases hf : cacheGet s.cache eid with
  | none => rfl
  | some v =>
      have hm := cacheGet_mem hf
      exact (hg _ hm).1

theorem hasSeen_empty_cache {s : RelayState} (hg : Good s) (eid : String) :
    hasSeen ⟨s.store, []⟩ eid = hasSeen s eid := by
  unfold hasSeen
  cases hf : cacheGet s.cache eid with
  | none => simp [cacheGet]
  | some v =>
      have hm := cacheGet_mem hf
      have h1 := (hg _ hm).1
      have h2 := (hg _ hm).2
      have hne : lastNotified s.store eid ≠ 0 := by
        intro h0
        rw [h0] at h1
        omega
      simp [cacheGet, hf, lastNotified_pos hne]

/-! ### The two branches of `ingest`, and how `dedupState` evolves -/

theorem ingest_replay_state {s : RelayState} {n : SourceNotice} (now : Nat)
    (h : n.opens_count ≤ dedupState s n.email_id) :
    ingest s n now = (Decision.replay, ⟨s.store ++ [eventOf n false], s.cache⟩, none) := by
  unfold ingest
  simp [h]

theorem ingest_notify_state {s : RelayState} {n : SourceNotice} (now : Nat)
    (h : dedupState s n.email_id < n.opens_count) :
    ingest s n now =
      ((if hasSeen s n.email_id then Decision.incremented else Decision.novel),
       ⟨s.store ++ [eventOf n true], cachePut s.cache n.email_id n.opens_count now⟩,
       some (n.email_id, n.opens_count)) := by
  unfold ingest
  simp [Nat.not_le.mpr h]

theorem dedupState_ingest (s : RelayState) (n : SourceNotice) (now : Nat) (eid : String) :
    dedupState ((ingest s n now).2.1) eid =
      if n.email_id = eid then max (dedupState s eid) n.opens_count
      else dedupState s eid := by
  rcases le_or_lt n.opens_count (dedupState s n.email_id) with hle | hlt
  · rw [ingest_replay_state now hle]
    by_cases he : n.email_id = eid
    · subst he
      have hsame : dedupState ⟨s.store ++ [eventOf n false], s.cache⟩ n.email_id
          = dedupState s n.email_id := by
        unfold dedupState
        cases hf : cacheGet s.cache n.email_id <;>
          simp [hf, lastNotified_append, eventOf]
      simp only [hsame, if_pos rfl]
      exact (Nat.max_eq_left hle).symm
    · unfold dedupState
      cases hf : cacheGet s.cache eid <;> simp [hf, lastNotified_append, eventOf, he]
  · rw [ingest_notify_state now hlt]
    by_cases he : n.email_id = eid
    · subst he
      unfold dedupState
      rw [cacheGet_cachePut_self]
      simp
      exact Nat.le_of_lt hlt
    · unfold dedupState
      rw [cacheGet_cachePut_other _ _ _ _ _ (fun hh => he hh.symm)]
      cases hf : cacheGet s.cache eid <;> simp [hf, lastNotified_append, eventOf, he]

theorem dedupState_le_ingest (s : RelayState) (n : SourceNotice) (now : Nat) (eid : String) :
    dedupState s eid ≤ dedupState ((ingest s n now).2.1) eid := by
  rw [dedupState_ingest]
  split
  · exact Nat.le_max_left _ _
  · exact Nat.le_refl _

/-! ### Preservation of the cache coherence invariant -/

theorem Good_init : Good initState := by
  intro p hp
  simp [initState] at hp

theorem Good_ingest {s : RelayState} (hg : Good s) (n : SourceNotice) (now : Nat) :
    Good ((ingest s n now).2.1) := by
  rcases le_or_lt n.opens_count (dedupState s n.email_id) with hle | hlt
  · rw [ingest_replay_state now hle]
    intro p hp
    have hold := hg p hp
    refine ⟨?_, hold.2⟩
    rw [lastNotified_append]
    simp [eventOf]
    exact hold.1
  · rw [ingest_notify_state now hlt]
    intro p hp
    simp only [cachePut, List.mem_append, List.mem_filter, List.mem_singleton] at hp
    rcases hp with ⟨hpc, hpne⟩ | hpe
    · have hne : ¬(n.email_id = p.1) := by
        intro hh
        simp [hh.symm] at hpne
      have hold := hg p hpc
      refine ⟨?_, hold.2⟩
      rw [lastNotified_append]
      simp [eventOf, hne]
      exact hold.1
    · subst hpe
      have hln : lastNotified s.store n.email_id = dedupState s n.email_id :=
        (dedupState_good hg n.email_id).symm
      constructor
      · rw [lastNotified_append]
        simp [eventOf]
        omega
      · simp
        omega

theorem Good_evict {s : RelayState} (hg : Good s) (now ret : Nat) :
    Good (evictCache s now ret) := by
  intro p hp
  have hp' : p ∈ s.cache := (List.mem_filter.mp hp).1
  exact hg p hp'

theorem Reachable.good {s : RelayState} (h : Reachable s) : Good s := by
  induction h with
  | init => exact Good_init
  | ingestStep n now _ ih => exact Good_ingest ih n now
  | evictStep now ret _ ih => exact Good_evict ih now ret

/-! ### Behaviour of `run` over a whole trace -/

theorem run_cons_fst (s : RelayState) (n : SourceNotice) (t : Nat)
    (rest : List (SourceNotice × Nat)) :
    (run s ((n, t) :: rest)).1 = (run (ingest s n t).2.1 rest).1 := rfl

theorem run_cons_snd (s : RelayState) (n : SourceNotice) (t : Nat)
    (rest : List (SourceNotice × Nat)) :
    (run s ((n, t) :: rest)).2 =
      (ingest s n t).2.2.toList ++ (run (ingest s n t).2.1 rest).2 := rfl

theorem dedupState_le_run (s : RelayState) (trace : List (SourceNotice × Nat)) (eid : String) :
    dedupState s eid ≤ dedupState (run s trace).1 eid := by
  induction trace generalizing s with
  | nil => exact Nat.le_refl _
  | cons q rest ih =>
      obtain ⟨n, t⟩ := q
      rw [run_cons_fst]
      exact Nat.le_trans (dedupState_le_ingest s n t eid) (ih _)

theorem run_noti_gt (s : RelayState) (trace : List (SourceNotice × Nat)) :
    ∀ p ∈ (run s trace).2, dedupState s p.1 < p.2 := by
  induction trace generalizing s with
  | nil => intro p hp; simp [run] at hp
  | cons q rest ih =>
      obtain ⟨n, t⟩ := q
      intro p hp
      rw [run_cons_snd, List.mem_append] at hp
      rcases hp with hp | hp
      · rcases le_or_lt n.opens_count (dedupState s n.email_id) with hle | hlt
        · rw [ingest_replay_state t hle] at hp
          simp at hp
        · rw [ingest_notify_state t hlt] at hp
          simp at hp
          rw [hp]
          exact hlt
      · exact Nat.lt_of_le_of_lt (dedupState_le_ingest s n t p.1) (ih _ p hp)

theorem run_noti_le_final (s : RelayState) (trace : List (SourceNotice × Nat)) :
    ∀ p ∈ (run s trace).2, p.2 ≤ dedupState (run s trace).1 p.1 := by
  induction trace generalizing s with
  | nil => intro p hp; simp [run] at hp
  | cons q rest ih =>
      obtain ⟨n, t⟩ := q
      intro p hp
      rw [run_cons_snd, List.mem_append] at hp
      rw [run_cons_fst]
      rcases hp with hp | hp
      · rcases le_or_lt n.opens_count (dedupState s n.email_id) with hle | hlt
        · rw [ingest_replay_state t hle] at hp
          simp at hp
        · rw [ingest_notify_state t hlt] at hp
          simp at hp
          rw [hp]
          have h3 : dedupState (ingest s n t).2.1 n.email_id = n.opens_count := by
            rw [dedupState_ingest]
            simp [Nat.max_eq_right (Nat.le_of_lt hlt)]
          calc n.opens_count = dedupState (ingest s n t).2.1 n.email_id := h3.symm
            _ ≤ dedupState (run (ingest s n t).2.1 rest).1 n.email_id := dedupState_le_run _ _ _
      · exact ih _ p hp

theorem run_pairwise (s : RelayState) (trace : List (SourceNotice × Nat)) :
    ((run s trace).2).Pairwise (fun a b => a.1 = b.1 → a.2 < b.2) := by
  induction trace generalizing s with
  | nil => simp [run]
  | cons q rest ih =>
      obtain ⟨n, t⟩ := q
      rw [run_cons_snd]
      refine List.pairwise_append.mpr ⟨?_, ih _, ?_⟩
      · cases (ingest s n t).2.2 <;> simp
      · intro a ha b hb heq
        rcases le_or_lt n.opens_count (dedupState s n.email_id) with hle | hlt
        · rw [ingest_replay_state t hle] at ha
          simp at ha
        · rw [ingest_notify_state t hlt] at ha hb
          simp at ha
          have hgt := run_noti_gt _ rest b hb
          have h3 : dedupState (ingest s n t).2.1 n.email_id = n.opens_count := by
            rw [dedupState_ingest]
            simp [Nat.max_eq_right (Nat.le_of_lt hlt)]
          rw [ingest_notify_state t hlt] at h3
          rw [ha] at heq ⊢
          rw [← heq] at hgt
          calc n.opens_count = _ := h3.symm
            _ < b.2 := hgt

theorem run_notifiedCounts (s : RelayState) (trace : List (SourceNotice × Nat)) (eid : String) :
    notifiedCounts (run s trace).1 eid =
      notifiedCounts s eid ++
        ((run s trace).2.filter (fun p => p.1 == eid)).map (fun p => p.2) := by
  induction trace generalizing s with
  | nil => simp [run]
  | cons q rest ih =>
      obtain ⟨n, t⟩ := q
      rw [run_cons_fst, run_cons_snd, ih]
      rcases le_or_lt n.opens_count (dedupState s n.email_id) with hle | hlt
      · rw [ingest_replay_state t hle]
        simp [notifiedCounts, eventOf, List.filter_append]
      · rw [ingest_notify_state t hlt]
        by_cases he : n.email_id = eid <;>
          simp [notifiedCounts, eventOf, List.filter_append, he, List.append_assoc]

/-! ### Further helper lemmas -/

theorem lastNotified_eq_zero {l : List EmailOpenEvent} {eid : String}
    (h : ∀ e ∈ l, e.email_id ≠ eid) : lastNotified l eid = 0 := by
  induction l with
  | nil => rfl
  | cons x l ih =>
      rw [lastNotified, if_neg (fun hc => h x (List.mem_cons_self x l) hc.1)]
      exact ih (fun e he => h e (List.mem_cons_of_mem x he))

theorem dedupState_run_foldl (s : RelayState) (trace : List (SourceNotice × Nat))
    (eid : String) :
    dedupState (run s trace).1 eid =
      trace.foldl (fun a p => if p.1.email_id = eid then max a p.1.opens_count else a)
        (dedupState s eid) := by
  induction trace generalizing s with
  | nil => rfl
  | cons q rest ih =>
      obtain ⟨n, t⟩ := q
      rw [run_cons_fst, ih, List.foldl_cons, dedupState_ingest]

theorem charsLe_total : ∀ xs ys : List Char, charsLe xs ys = true ∨ charsLe ys xs = true
  | [], _ => Or.inl rfl
  | _ :: _, [] => Or.inr rfl
  | x :: xs, y :: ys => by
      rcases Nat.lt_trichotomy x.toNat y.toNat with h | h | h
      · left; simp [charsLe, h]
      · rcases charsLe_total xs ys with ih | ih
        · left; simp [charsLe, h, ih]
        · right; simp [charsLe, h.symm, ih]
      · right; simp [charsLe, h]

theorem charsLe_trans :
    ∀ xs ys zs : List Char, charsLe xs ys = true → charsLe ys zs = true →
      charsLe xs zs = true
  | [], _, _, _, _ => rfl
  | _ :: _, [], _, h, _ => by simp [charsLe] at h
  | _ :: _, _ :: _, [], _, h => by simp [charsLe] at h
  | x :: xs, y :: ys, z :: zs, h1, h2 => by
      simp only [charsLe] at h1 h2 ⊢
      by_cases hxy : x.toNat < y.toNat
      · by_cases hyz : y.toNat < z.toNat
        · simp [show x.toNat < z.toNat by omega]
        · by_cases hzy : z.toNat < y.toNat
          · rw [if_neg hyz, if_pos hzy] at h2
            simp at h2
          · simp [show x.toNat < z.toNat by omega]
      · by_cases hyx : y.toNat < x.toNat
        · rw [if_neg hxy, if_pos hyx] at h1
          simp at h1
        · rw [if_neg hxy, if_neg hyx] at h1
          by_cases hyz : y.toNat < z.toNat
          · simp [show x.toNat < z.toNat by omega]
          · by_cases hzy : z.toNat < y.toNat
            · rw [if_neg hyz, if_pos hzy] at h2
              simp at h2
            · rw [if_neg hyz, if_neg hzy] at h2
              rw [if_neg (show ¬ x.toNat < z.toNat by omega),
                if_neg (show ¬ z.toNat < x.toNat by omega)]
              exact charsLe_trans xs ys zs h1 h2

/-! ### The claims -/

/-- C1: over any sequence of ingested notices from the empty state, at most one
notification is dispatched per `(email_id, opens_count)` pair — along the
dispatched-notification list, two entries for the same `email_id` carry
strictly increasing counts — and once `(email_id, c)` has been notified, any
later notice for that `email_id` with `opens_count ≤ c` is classified Replay
and emits no notification. -/
theorem C1_at_most_one_notification (trace : List (SourceNotice × Nat)) :
    ((run initState trace).2).Pairwise (fun a b => a.1 = b.1 → a.2 < b.2) ∧
    (∀ (n : SourceNotice) (now c : Nat),
      (n.email_id, c) ∈ (run initState trace).2 → n.opens_count ≤ c →
        (ingest (run initState trace).1 n now).1 = Decision.replay ∧
        (ingest (run initState trace).1 n now).2.2 = none) := by
  refine ⟨run_pairwise _ _, ?_⟩
  intro n now c hmem hle
  have h1 : c ≤ dedupState (run initState trace).1 n.email_id :=
    run_noti_le_final _ _ (n.email_id, c) hmem
  rw [ingest_replay_state now (Nat.le_trans hle h1)]
  exact ⟨rfl, rfl⟩

/-- C2 counterexample: after the webhook notice `E1, opens_count = 3` and then
the poll notice `E1, opens_count = 2` (spec Scenario C), the EventStore holds
the counts `[3, 2]` for `E1` — the replay audit record makes the stored
sequence decrease, refuting the claim that every ingestion (replays included,
recorded for audit) preserves a non-decreasing stored sequence. -/
theorem C2_counterexample :
    ¬ List.Chain' (· ≤ ·)
      (storedCounts (run initState [(noticeE1w3, 0), (noticeE1p2, 1)]).1 "E1") := by
  have h : storedCounts (run initState [(noticeE1w3, 0), (noticeE1p2, 1)]).1 "E1"
      = [3, 2] := rfl
  rw [h]
  intro hc
  rw [List.chain'_cons] at hc
  exact absurd hc.1 (by omega)

/-- C2 (amended): for every `email_id`, the `opens_count` values of the
*notification-triggering* rows stored for it are strictly increasing (hence
non-decreasing) over time, under every sequence of ingested notices; replay
audit rows are also recorded but may carry lower counts. -/
theorem C2_notified_monotonic (trace : List (SourceNotice × Nat)) (eid : String) :
    (notifiedCounts (run initState trace).1 eid).Pairwise (· < ·) := by
  rw [run_notifiedCounts]
  have h0 : notifiedCounts initState eid = [] := rfl
  rw [h0, List.nil_append]
  have h1 := (run_pairwise initState trace).filter (fun p => p.1 == eid)
  refine List.pairwise_map.mpr (h1.imp_of_mem ?_)
  intro a b ha hb hR
  have ha2 := (List.mem_filter.mp ha).2
  have hb2 := (List.mem_filter.mp hb).2
  simp only [beq_iff_eq] at ha2 hb2
  exact hR (ha2.trans hb2.symm)

/-- C3: `Ingest` resolves the last notified count from the cache, else from the
EventStore, else 0 for a never-seen `email_id`; when `opens_count` exceeds that
count it persists the event with the new count, emits the notification, and
updates the DedupCache with the new count and the current time; otherwise it
emits no notification. -/
theorem C3_ingest_contract (s : RelayState) (n : SourceNotice) (now : Nat) :
    (∀ c t, cacheGet s.cache n.email_id = some (c, t) → dedupState s n.email_id = c) ∧
    (cacheGet s.cache n.email_id = none →
      dedupState s n.email_id = lastNotified s.store n.email_id) ∧
    (cacheGet s.cache n.email_id = none → (∀ e ∈ s.store, e.email_id ≠ n.email_id) →
      dedupState s n.email_id = 0) ∧
    (dedupState s n.email_id < n.opens_count →
      (ingest s n now).2.1.store = s.store ++ [eventOf n true] ∧
      (ingest s n now).2.2 = some (n.email_id, n.opens_count) ∧
      cacheGet (ingest s n now).2.1.cache n.email_id = some (n.opens_count, now)) ∧
    (n.opens_count ≤ dedupState s n.email_id →
      (ingest s n now).2.2 = none) := by
  refine ⟨?_, ?_, ?_, ?_, ?_⟩
  · intro c t h
    unfold dedupState
    rw [h]
  · intro h
    unfold dedupState
    rw [h]
  · intro h hnone
    unfold dedupState
    rw [h]
    exact lastNotified_eq_zero hnone
  · intro h
    rw [ingest_notify_state now h]
    exact ⟨rfl, rfl, cacheGet_cachePut_self _ _ _ _⟩
  · intro h
    rw [ingest_replay_state now h]

/-- C4 counterexample: the two-notice multiset of spec Scenario C — webhook
`E1, count = 3` and poll `E1, count = 2` — processed in its two interleavings
dispatches different notification sets: webhook first notifies only
`("E1", 3)`, poll first notifies `("E1", 2)` and then `("E1", 3)`.  This
refutes order-independence of the dispatched notification set. -/
theorem C4_counterexample :
    [(noticeE1w3, (0 : Nat)), (noticeE1p2, 1)].Perm [(noticeE1p2, 1), (noticeE1w3, 0)] ∧
    ("E1", 2) ∈ (run initState [(noticeE1p2, 1), (noticeE1w3, 0)]).2 ∧
    ("E1", 2) ∉ (run initState [(noticeE1w3, 0), (noticeE1p2, 1)]).2 := by
  refine ⟨by decide, by decide, by decide⟩

/-- C4 (amended): processing the same multiset of notices in any two orders
yields the same final dedup state: for every `email_id` the final last-notified
count is the running maximum of the reported counts (so the highest
`opens_count` wins regardless of source or arrival order).  The dispatched
notification set and the EventStore log, however, do depend on the
interleaving when sources report diverging counts. -/
theorem C4_final_state_order_independent (t₁ t₂ : List (SourceNotice × Nat))
    (hp : t₁.Perm t₂) (eid : String) :
    dedupState (run initState t₁).1 eid =
      t₁.foldl (fun a p => if p.1.email_id = eid then max a p.1.opens_count else a) 0 ∧
    dedupState (run initState t₁).1 eid = dedupState (run initState t₂).1 eid := by
  have h0 : dedupState initState eid = 0 := rfl
  haveI hrc : RightCommutative
      (fun (a : Nat) (p : SourceNotice × Nat) =>
        if p.1.email_id = eid then max a p.1.opens_count else a) := by
    constructor
    intro b a₁ a₂
    by_cases h1 : a₁.1.email_id = eid <;> by_cases h2 : a₂.1.email_id = eid <;>
      simp [h1, h2]
    rw [Nat.max_assoc, Nat.max_comm a₁.1.opens_count a₂.1.opens_count, ← Nat.max_assoc]
  constructor
  · rw [dedupState_run_foldl, h0]
  · rw [dedupState_run_foldl, dedupState_run_foldl, h0]
    exact hp.foldl_eq 0

/-- C4 witness: the two interleavings of Scenario C's notices end in the same
dedup state for `E1`. -/
theorem C4_witness :
    dedupState (run initState [(noticeE1w3, (0 : Nat)), (noticeE1p2, 1)]).1 "E1" =
      dedupState (run initState [(noticeE1p2, 1), (noticeE1w3, 0)]).1 "E1" :=
  (C4_final_state_order_independent [(noticeE1w3, 0), (noticeE1p2, 1)]
    [(noticeE1p2, 1), (noticeE1w3, 0)] (by decide) "E1").2

/-- C5: in every reachable state, fully evicting the DedupCache does not change
the classification of the next ingested notice nor its notification decision —
a cache miss falls back to the EventStore lookup, so the dedup decision is
unaffected. -/
theorem C5_cache_miss_transparency {s : RelayState} (hs : Reachable s)
    (n : SourceNotice) (now : Nat) :
    (ingest ⟨s.store, []⟩ n now).1 = (ingest s n now).1 ∧
    (ingest ⟨s.store, []⟩ n now).2.2 = (ingest s n now).2.2 := by
  have hg := hs.good
  have hds : dedupState ⟨s.store, []⟩ n.email_id = dedupState s n.email_id := by
    rw [dedupState_good hg]
    rfl
  have hseen := hasSeen_empty_cache hg n.email_id
  rcases le_or_lt n.opens_count (dedupState s n.email_id) with hle | hlt
  · rw [ingest_replay_state now hle, ingest_replay_state now (by rw [hds]; exact hle)]
    exact ⟨rfl, rfl⟩
  · rw [ingest_notify_state now hlt, ingest_notify_state now (by rw [hds]; exact hlt)]
    rw [hseen]
    exact ⟨rfl, rfl⟩

/-- C5 witness: after ingesting the Scenario C webhook notice, evicting the
whole cache leaves the next notice's notification decision unchanged. -/
theorem C5_witness :
    (ingest ⟨(ingest initState noticeE1w3 0).2.1.store, []⟩ noticeE1p2 5).2.2 =
      (ingest (ingest initState noticeE1w3 0).2.1 noticeE1p2 5).2.2 :=
  (C5_cache_miss_transparency (Reachable.ingestStep noticeE1w3 0 Reachable.init)
    noticeE1p2 5).2

/-- C6: the webhook receiver's status is a function of the ingestion outcome
alone: 400 exactly on a malformed payload, 500 exactly when the EventStore
write fails on a well-formed payload (the only request-failing error class),
200 exactly when a well-formed payload is ingested with the write succeeding —
in particular 200 also when the notice is classified Replay. -/
theorem C6_webhook_status (s : RelayState) (payload : Option SourceNotice)
    (now : Nat) (storeOk : Bool) :
    ((handleWebhook s payload now storeOk).1 = 400 ↔ payload = none) ∧
    ((handleWebhook s payload now storeOk).1 = 500 ↔ payload ≠ none ∧ storeOk = false) ∧
    ((handleWebhook s payload now storeOk).1 = 200 ↔ payload ≠ none ∧ storeOk = true) ∧
    (∀ m : SourceNotice, payload = some m → storeOk = true →
      (ingest s m now).1 = Decision.replay →
      (handleWebhook s payload now storeOk).1 = 200) := by
  cases payload <;> cases storeOk <;> simp [handleWebhook]

/-- C7: `TopLeads(limit)` lists leads by total opens descending, with ties
broken by lead_id ascending (any two listed leads are either in strictly
descending opens order or, at equal opens, in strictly ascending lead_id
order); on the two-lead store with three opens each, `TopLeads(1)` returns the
lexicographically smaller lead id `L1`. -/
theorem C7_topLeads_ranking (store : List EmailOpenEvent) (limit : Nat) :
    ((topLeads store limit).Pairwise (fun a b =>
      leadOpens store b < leadOpens store a ∨
        (leadOpens store a = leadOpens store b ∧ strLe a b = true ∧ a ≠ b))) ∧
    topLeads demoStore 1 = ["L1"] := by
  constructor
  · haveI htot : IsTotal String (leadOrder store) := by
      constructor
      intro a b
      rcases Nat.lt_trichotomy (leadOpens store a) (leadOpens store b) with h | h | h
      · exact Or.inr (Or.inl h)
      · rcases charsLe_total a.data b.data with hc | hc
        · exact Or.inl (Or.inr ⟨h, hc⟩)
        · exact Or.inr (Or.inr ⟨h.symm, hc⟩)
      · exact Or.inl (Or.inl h)
    haveI htrans : IsTrans String (leadOrder store) := by
      constructor
      intro a b c hab hbc
      rcases hab with h1 | ⟨h1, h1'⟩ <;> rcases hbc with h2 | ⟨h2, h2'⟩
      · exact Or.inl (by omega)
      · exact Or.inl (by omega)
      · exact Or.inl (by omega)
      · exact Or.inr ⟨by omega, charsLe_trans _ _ _ h1' h2'⟩
    have hsorted : List.Pairwise (leadOrder store)
        (List.insertionSort (leadOrder store) (leadIds store)) :=
      List.sorted_insertionSort (leadOrder store) (leadIds store)
    have hnd : (List.insertionSort (leadOrder store) (leadIds store)).Nodup :=
      ((List.perm_insertionSort (leadOrder store) (leadIds store)).nodup_iff).mpr
        (List.nodup_dedup _)
    have hboth := hsorted.and hnd
    have htake := List.Pairwise.sublist (List.take_sublist limit _) hboth
    refine htake.imp ?_
    intro a b h
    rcases h.1 with h1 | ⟨h1, h1'⟩
    · exact Or.inl h1
    · exact Or.inr ⟨h1, h1', h.2⟩
  · decide

/-- C8: whether the Poller runs depends on the polling-enabled flag alone —
two configurations agreeing on `POLLING_ENABLED` behave identically, whatever
their webhook configuration — and whenever polling is enabled a tick feeds
every fetched activity record, mapped to a poll-sourced notice, to the
Reconciler. -/
theorem C8_poller_runs (cfg₁ cfg₂ : Settings) (s : RelayState)
    (activity : List SourceNotice) (now : Nat)
    (h : cfg₁.POLLING_ENABLED = cfg₂.POLLING_ENABLED) :
    pollerRuns cfg₁ = pollerRuns cfg₂ ∧
    pollerTick cfg₁ s activity now = pollerTick cfg₂ s activity now ∧
    (cfg₁.POLLING_ENABLED = true →
      pollerTick cfg₁ s activity now =
        run s (activity.map (fun n => ({ n with source := Source.poll }, now)))) := by
  refine ⟨h, ?_, ?_⟩
  · unfold pollerTick
    rw [h]
  · intro he
    unfold pollerTick
    rw [he]
    simp

/-- C8 witness: the configuration with no webhook configured and the one with
`DISCORD_WEBHOOK_URL` set agree on polling, so a Poller tick behaves
identically under both. -/
theorem C8_witness :
    pollerTick (settingsOf emptyEnv) initState [noticeE1w3] 7 =
      pollerTick (settingsOf envWithWebhook) initState [noticeE1w3] 7 :=
  (C8_poller_runs (settingsOf emptyEnv) (settingsOf envWithWebhook) initState
    [noticeE1w3] 7 (by decide)).2.1

/-- C9: with `POLLING_ENABLED`, `POLLING_INTERVAL_SECONDS` and
`CACHE_RETENTION_HOURS` all unset in the environment, the loaded configuration
has polling enabled, a 300-second polling interval and a 24-hour cache
retention (`config.py` defaults). -/
theorem C9_config_defaults (env : String → Option String)
    (h1 : env "POLLING_ENABLED" = none)
    (h2 : env "POLLING_INTERVAL_SECONDS" = none)
    (h3 : env "CACHE_RETENTION_HOURS" = none) :
    (settingsOf env).POLLING_ENABLED = true ∧
    (settingsOf env).POLLING_INTERVAL_SECONDS = 300 ∧
    (settingsOf env).CACHE_RETENTION_HOURS = 24 := by
  refine ⟨?_, ?_, ?_⟩ <;> simp [settingsOf, h1, h2, h3] <;> decide

/-- C9 witness: the all-unset environment yields the three defaults. -/
theorem C9_witness :
    (settingsOf emptyEnv).POLLING_ENABLED = true ∧
    (settingsOf emptyEnv).POLLING_INTERVAL_SECONDS = 300 ∧
    (settingsOf emptyEnv).CACHE_RETENTION_HOURS = 24 :=
  C9_config_defaults emptyEnv rfl rfl rfl

/-- C10 counterexample: with `DEBUG=1` in the environment, pydantic's boolean
coercion overrides the field default and the loaded `DEBUG` flag is true, even
though `"1"` lowercased is not `"true"` — the claim predicts false for
`"1"`. -/
theorem C10_counterexample :
    debugOf (fun k => if k = "DEBUG" then some "1" else none) = some true ∧
    ¬ pyLower "1" = "true" := by
  decide

/-- C10 (amended): under pydantic `BaseSettings` semantics the environment
value overrides the field default, so `DEBUG` is true exactly when the `DEBUG`
variable is set and, lowercased, is one of pydantic's truthy boolean strings
`"true"`, `"t"`, `"yes"`, `"y"`, `"on"`, `"1"`; when it is unset the
`os.getenv` default path yields false; in particular `"1"`, `"yes"` and `"on"`
yield true, not false, and a value outside pydantic's boolean vocabulary (such
as `"banana"`) fails settings construction. -/
theorem C10_debug_flag (env : String → Option String) :
    (debugOf env = some true ↔
      (∃ v, env "DEBUG" = some v ∧ pyLower v ∈ ["true", "t", "yes", "y", "on", "1"])) ∧
    (env "DEBUG" = none → debugOf env = some false) ∧
    debugOf (fun k => if k = "DEBUG" then some "yes" else none) = some true ∧
    debugOf (fun k => if k = "DEBUG" then some "on" else none) = some true ∧
    debugOf (fun k => if k = "DEBUG" then some "TRUE" else none) = some true ∧
    debugOf (fun k => if k = "DEBUG" then some "banana" else none) = none := by
  refine ⟨⟨?_, ?_⟩, ?_, by decide, by decide, by decide, by decide⟩
  · intro h
    cases he : env "DEBUG" with
    | none =>
        unfold debugOf at h
        rw [he] at h
        exact absurd h (by decide)
    | some v =>
        have hd : debugOf env = pydanticBool? v := by
          unfold debugOf
          rw [he]
        rw [hd] at h
        refine ⟨v, rfl, ?_⟩
        unfold pydanticBool? at h
        by_cases hm : pyLower v ∈ ["true", "t", "yes", "y", "on", "1"]
        · exact hm
        · rw [if_neg hm] at h
          by_cases hm2 : pyLower v ∈ ["false", "f", "no", "n", "off", "0"] <;>
            simp [hm2] at h
  · rintro ⟨v, hv, hmem⟩
    have hd : debugOf env = pydanticBool? v := by
      unfold debugOf
      rw [hv]
    rw [hd]
    unfold pydanticBool?
    rw [if_pos hmem]
  · intro he
    unfold debugOf
    rw [he]
    decide

end EmailRelay
